import Mathlib

/-!
Shallow embedding of the `ndmachine` library (src/src/lib.rs), a small
Tseitin-encoding layer over a pluggable SAT backend, together with proofs of
the specified properties.  The formula store (`Instance`, `Literal`,
`Assignment` of the external `sat` crate) is modelled from the spec's data
model: variables are strictly increasing integers, a literal is a variable
with a polarity, clauses are append-only disjunctions, an assignment is a
total mapping from variables to booleans.  The session state and every
operation of the library itself are translated directly from the source;
thread-local session lookup is modelled by explicit state passing, and the
fatal panics (uninitialized machine, missing solution) are modelled as
`Option` with `none` standing for the abort.
-/

namespace Ndmachine

/-- Modelled from the spec (data model of the external formula store): a
literal is a variable identifier together with a polarity. -/
structure Literal where
  var : Nat
  pos : Bool
deriving DecidableEq

/-- Negation of a literal flips the polarity (`!l` in the source); it is a
pure transformation, allocating nothing. -/
def Literal.not (l : Literal) : Literal :=
  ⟨l.var, !l.pos⟩

/-- Modelled from the spec: a clause is an ordered collection of literals,
semantically a disjunction. -/
abbrev Clause := List Literal

/-- Modelled from the spec: the formula store holds the allocated variables
(identified by the count `numVars`, assigned in strictly increasing order)
and the ordered, append-only sequence of asserted clauses. -/
structure Instance where
  numVars : Nat
  clauses : List Clause
deriving DecidableEq

/-- Empty formula store (`Instance::new`). -/
def Instance.new : Instance :=
  ⟨0, []⟩

/-- Allocate a fresh variable (`Instance::fresh_var`), returning the grown
store and the positive literal of the new variable. -/
def Instance.fresh_var (i : Instance) : Instance × Literal :=
  (⟨i.numVars + 1, i.clauses⟩, ⟨i.numVars, true⟩)

/-- Assert a clause (`Instance::assert_any`): append it to the store. -/
def Instance.assert_any (i : Instance) (c : Clause) : Instance :=
  ⟨i.numVars, i.clauses ++ [c]⟩

/-- Modelled from the spec: an assignment is a total mapping from variables
to booleans. -/
abbrev Assignment := Nat → Bool

/-- Value of a literal under an assignment (`Assignment::get`): the value of
its variable, negated when the polarity is negative. -/
def Assignment.get (a : Assignment) (l : Literal) : Bool :=
  if l.pos then a l.var else !(a l.var)

/-- Truth of a clause (a disjunction) under an assignment. -/
def Clause.eval (a : Assignment) (c : Clause) : Bool :=
  c.any (fun l => Assignment.get a l)

/-- Truth of every asserted clause of the store under an assignment. -/
def Instance.satisfiedBy (i : Instance) (a : Assignment) : Bool :=
  i.clauses.all (fun c => Clause.eval a c)

/-- Session state (`struct NdMachine`): one formula store plus an assignment
slot that is either absent or present. -/
structure NdMachine where
  inst : Instance
  assignment : Option Assignment

/-- Fresh session (`NdMachine::new`): empty store, absent assignment. -/
def NdMachine.new : NdMachine :=
  ⟨Instance.new, none⟩

/-- Nondeterministic boolean (`pub struct ndbool(Literal)`): a copyable
handle wrapping one literal. -/
structure ndbool where
  lit : Literal
deriving DecidableEq

/-- Constant-true constructor (`ndbool::t`): allocate a fresh variable,
assert the positive unit clause, drop the assignment slot. -/
def ndbool.t (m : NdMachine) : NdMachine × ndbool :=
  let fl := m.inst.fresh_var
  let l := fl.2
  (⟨fl.1.assert_any [l], none⟩, ⟨l⟩)

/-- Constant-false constructor (`ndbool::f`): allocate a fresh variable,
assert the negative unit clause, drop the assignment slot. -/
def ndbool.f (m : NdMachine) : NdMachine × ndbool :=
  let fl := m.inst.fresh_var
  let l := fl.2
  (⟨fl.1.assert_any [l.not], none⟩, ⟨l⟩)

/-- Unconstrained fresh variable (`ndbool::fresh`).  Note: the source does
not touch the assignment slot here. -/
def ndbool.fresh (m : NdMachine) : NdMachine × ndbool :=
  let fl := m.inst.fresh_var
  ({ m with inst := fl.1 }, ⟨fl.2⟩)

/-- Value extraction (`ndbool::value`): read the stored assignment at the
wrapped literal; the panic on an absent slot is modelled as `none`.  The
machine is returned unchanged, mirroring a body that only reads. -/
def ndbool.value (m : NdMachine) (b : ndbool) : NdMachine × Option Bool :=
  (m, m.assignment.map (fun a => Assignment.get a b.lit))

/-- Negation (`impl Not for ndbool`): flip the wrapped literal; no state. -/
def ndbool.not (b : ndbool) : ndbool :=
  ⟨b.lit.not⟩

/-- Tseitin AND gate (`impl BitAnd for ndbool`): fresh variable `l`, clauses
`[!a, !b, l]`, `[a, !l]`, `[b, !l]`, assignment slot dropped. -/
def ndbool.bitand (m : NdMachine) (a b : ndbool) : NdMachine × ndbool :=
  let fl := m.inst.fresh_var
  let l := fl.2
  let i := ((fl.1.assert_any [a.lit.not, b.lit.not, l]).assert_any
      [a.lit, l.not]).assert_any [b.lit, l.not]
  (⟨i, none⟩, ⟨l⟩)

/-- Tseitin OR gate (`impl BitOr for ndbool`): fresh variable `l`, clauses
`[a, b, !l]`, `[!a, l]`, `[!b, l]`, assignment slot dropped. -/
def ndbool.bitor (m : NdMachine) (a b : ndbool) : NdMachine × ndbool :=
  let fl := m.inst.fresh_var
  let l := fl.2
  let i := ((fl.1.assert_any [a.lit, b.lit, l.not]).assert_any
      [a.lit.not, l]).assert_any [b.lit.not, l]
  (⟨i, none⟩, ⟨l⟩)

/-- XOR by composition (`impl BitXor for ndbool`): `(a | b) & !(a & b)`,
with Rust's left-to-right operand evaluation order. -/
def ndbool.bitxor (m : NdMachine) (a b : ndbool) : NdMachine × ndbool :=
  let o := ndbool.bitor m a b
  let n := ndbool.bitand o.1 a b
  ndbool.bitand n.1 o.2 n.2.not

/-- Equality encoding (`impl NdEq for ndbool`): `(a | !b) & (!a | b)`. -/
def ndbool.ndeq (m : NdMachine) (a b : ndbool) : NdMachine × ndbool :=
  let p := ndbool.bitor m a b.not
  let q := ndbool.bitor p.1 a.not b
  ndbool.bitand q.1 p.2 q.2

/-- Inequality (default method `NdEq::ndne`): negation of `ndeq`. -/
def ndbool.ndne (m : NdMachine) (a b : ndbool) : NdMachine × ndbool :=
  let e := ndbool.ndeq m a b
  (e.1, e.2.not)

/-- Public assertion (`ndassert`): assert the wrapped literal as a unit
clause.  Note: the source does not touch the assignment slot here. -/
def ndassert (m : NdMachine) (b : ndbool) : NdMachine :=
  { m with inst := m.inst.assert_any [b.lit] }

/-- Convenience assertion (`ndassert_eq`). -/
def ndassert_eq (m : NdMachine) (a b : ndbool) : NdMachine :=
  let e := ndbool.ndeq m a b
  ndassert e.1 e.2

/-- Convenience assertion (`ndassert_ne`). -/
def ndassert_ne (m : NdMachine) (a b : ndbool) : NdMachine :=
  let e := ndbool.ndne m a b
  ndassert e.1 e.2

/-- Solving (`solve_by`): the backend is a function from the formula store
to an optional assignment; the result is stored in the slot unconditionally
and the return value reports whether it is present. -/
def solve_by (solver : Instance → Option Assignment) (m : NdMachine) :
    NdMachine × Bool :=
  let a := solver m.inst
  ({ m with assignment := a }, a.isSome)

/-- Session access (`NdMachine::with` over the thread-local slot): the panic
on an uninitialized machine is modelled as `none`. -/
def NdMachine.withActive {α : Type} (s : Option NdMachine)
    (f : NdMachine → NdMachine × α) : Option (NdMachine × α) :=
  s.map f

/-- Initialization (`init`): installs a fresh session wholesale, whatever
the slot held before. -/
def init (_ : Option NdMachine) : Option NdMachine :=
  some NdMachine.new

/-- Public constant-true at the session-slot level. -/
def tOpt (s : Option NdMachine) : Option (NdMachine × ndbool) :=
  NdMachine.withActive s ndbool.t

/-- Public constant-false at the session-slot level. -/
def fOpt (s : Option NdMachine) : Option (NdMachine × ndbool) :=
  NdMachine.withActive s ndbool.f

/-- Public fresh variable at the session-slot level. -/
def freshOpt (s : Option NdMachine) : Option (NdMachine × ndbool) :=
  NdMachine.withActive s ndbool.fresh

/-- Public AND at the session-slot level. -/
def bitandOpt (s : Option NdMachine) (a b : ndbool) :
    Option (NdMachine × ndbool) :=
  NdMachine.withActive s (fun m => ndbool.bitand m a b)

/-- Public OR at the session-slot level. -/
def bitorOpt (s : Option NdMachine) (a b : ndbool) :
    Option (NdMachine × ndbool) :=
  NdMachine.withActive s (fun m => ndbool.bitor m a b)

/-- Public XOR at the session-slot level. -/
def bitxorOpt (s : Option NdMachine) (a b : ndbool) :
    Option (NdMachine × ndbool) :=
  NdMachine.withActive s (fun m => ndbool.bitxor m a b)

/-- Public equality encoding at the session-slot level. -/
def ndeqOpt (s : Option NdMachine) (a b : ndbool) :
    Option (NdMachine × ndbool) :=
  NdMachine.withActive s (fun m => ndbool.ndeq m a b)

/-- Public inequality encoding at the session-slot level. -/
def ndneOpt (s : Option NdMachine) (a b : ndbool) :
    Option (NdMachine × ndbool) :=
  NdMachine.withActive s (fun m => ndbool.ndne m a b)

/-- Public assertion at the session-slot level. -/
def ndassertOpt (s : Option NdMachine) (b : ndbool) :
    Option (NdMachine × Unit) :=
  NdMachine.withActive s (fun m => (ndassert m b, ()))

/-- Public equality assertion at the session-slot level. -/
def ndassertEqOpt (s : Option NdMachine) (a b : ndbool) :
    Option (NdMachine × Unit) :=
  NdMachine.withActive s (fun m => (ndassert_eq m a b, ()))

/-- Public inequality assertion at the session-slot level. -/
def ndassertNeOpt (s : Option NdMachine) (a b : ndbool) :
    Option (NdMachine × Unit) :=
  NdMachine.withActive s (fun m => (ndassert_ne m a b, ()))

/-- Public negation at the session-slot level: the source's `impl Not for
ndbool` never calls `NdMachine::with`, so the slot is not consulted and the
flipped handle is returned whether or not a session exists. -/
def notOpt (_ : Option NdMachine) (b : ndbool) : ndbool :=
  ndbool.not b

/-- Public solve at the session-slot level. -/
def solveOpt (solver : Instance → Option Assignment)
    (s : Option NdMachine) : Option (NdMachine × Bool) :=
  NdMachine.withActive s (solve_by solver)

/-- Public value extraction at the session-slot level. -/
def valueOpt (s : Option NdMachine) (b : ndbool) :
    Option (NdMachine × Option Bool) :=
  NdMachine.withActive s (fun m => ndbool.value m b)

/-- Trace of `ndassert_ne(a & b, b & a)` with Rust's left-to-right argument
evaluation order. -/
def and_comm_trace (m : NdMachine) (a b : ndbool) : NdMachine :=
  let p := ndbool.bitand m a b
  let q := ndbool.bitand p.1 b a
  ndassert_ne q.1 p.2 q.2

/-- Trace of `ndassert_ne(a | b, b | a)`. -/
def or_comm_trace (m : NdMachine) (a b : ndbool) : NdMachine :=
  let p := ndbool.bitor m a b
  let q := ndbool.bitor p.1 b a
  ndassert_ne q.1 p.2 q.2

/-- Trace of `ndassert_ne((a & b) & c, a & (b & c))`. -/
def and_assoc_trace (m : NdMachine) (a b c : ndbool) : NdMachine :=
  let p1 := ndbool.bitand m a b
  let p2 := ndbool.bitand p1.1 p1.2 c
  let q1 := ndbool.bitand p2.1 b c
  let q2 := ndbool.bitand q1.1 a q1.2
  ndassert_ne q2.1 p2.2 q2.2

/-- Trace of `ndassert_ne((a | b) | c, a | (b | c))`. -/
def or_assoc_trace (m : NdMachine) (a b c : ndbool) : NdMachine :=
  let p1 := ndbool.bitor m a b
  let p2 := ndbool.bitor p1.1 p1.2 c
  let q1 := ndbool.bitor p2.1 b c
  let q2 := ndbool.bitor q1.1 a q1.2
  ndassert_ne q2.1 p2.2 q2.2

lemma get_not (g : Assignment) (l : Literal) :
    Assignment.get g l.not = !(Assignment.get g l) := by
  cases l with
  | mk v p => cases p <;> simp [Assignment.get, Literal.not]

lemma satisfiedBy_assert_any (i : Instance) (c : Clause) (g : Assignment) :
    (i.assert_any c).satisfiedBy g = (i.satisfiedBy g && Clause.eval g c) := by
  simp [Instance.assert_any, Instance.satisfiedBy]

lemma bitand_sat {m : NdMachine} {a b : ndbool} {g : Assignment}
    (h : (ndbool.bitand m a b).1.inst.satisfiedBy g = true) :
    m.inst.satisfiedBy g = true ∧
      Assignment.get g (ndbool.bitand m a b).2.lit =
        (Assignment.get g a.lit && Assignment.get g b.lit) := by
  simp only [ndbool.bitand, Instance.fresh_var, satisfiedBy_assert_any,
    Clause.eval, List.any_cons, List.any_nil, get_not, Bool.or_false,
    Bool.and_eq_true, Bool.or_eq_true, Bool.not_eq_true'] at h ⊢
  obtain ⟨⟨⟨hm, h1⟩, h2⟩, h3⟩ := h
  refine ⟨hm, ?_⟩
  revert h1 h2 h3
  generalize Assignment.get g a.lit = x
  generalize Assignment.get g b.lit = y
  generalize Assignment.get g (⟨m.inst.numVars, true⟩ : Literal) = l
  cases x <;> cases y <;> cases l <;> simp

lemma bitor_sat {m : NdMachine} {a b : ndbool} {g : Assignment}
    (h : (ndbool.bitor m a b).1.inst.satisfiedBy g = true) :
    m.inst.satisfiedBy g = true ∧
      Assignment.get g (ndbool.bitor m a b).2.lit =
        (Assignment.get g a.lit || Assignment.get g b.lit) := by
  simp only [ndbool.bitor, Instance.fresh_var, satisfiedBy_assert_any,
    Clause.eval, List.any_cons, List.any_nil, get_not, Bool.or_false,
    Bool.and_eq_true, Bool.or_eq_true, Bool.not_eq_true'] at h ⊢
  obtain ⟨⟨⟨hm, h1⟩, h2⟩, h3⟩ := h
  refine ⟨hm, ?_⟩
  revert h1 h2 h3
  generalize Assignment.get g a.lit = x
  generalize Assignment.get g b.lit = y
  generalize Assignment.get g (⟨m.inst.numVars, true⟩ : Literal) = l
  cases x <;> cases y <;> cases l <;> simp

lemma get_ndnot (g : Assignment) (b : ndbool) :
    Assignment.get g (ndbool.not b).lit = !(Assignment.get g b.lit) := by
  simp [ndbool.not, get_not]

lemma ndassert_sat {m : NdMachine} {b : ndbool} {g : Assignment}
    (h : (ndassert m b).inst.satisfiedBy g = true) :
    m.inst.satisfiedBy g = true ∧ Assignment.get g b.lit = true := by
  simp only [ndassert, satisfiedBy_assert_any, Clause.eval, List.any_cons,
    List.any_nil, Bool.or_false, Bool.and_eq_true] at h
  exact h

lemma ndeq_sat {m : NdMachine} {a b : ndbool} {g : Assignment}
    (h : (ndbool.ndeq m a b).1.inst.satisfiedBy g = true) :
    m.inst.satisfiedBy g = true ∧
      Assignment.get g (ndbool.ndeq m a b).2.lit =
        (Assignment.get g a.lit == Assignment.get g b.lit) := by
  simp only [ndbool.ndeq] at h ⊢
  obtain ⟨h1, hE⟩ := bitand_sat h
  obtain ⟨h2, hQ⟩ := bitor_sat h1
  obtain ⟨h3, hP⟩ := bitor_sat h2
  refine ⟨h3, ?_⟩
  rw [hE, hQ, hP, get_ndnot, get_ndnot]
  generalize Assignment.get g a.lit = x
  generalize Assignment.get g b.lit = y
  cases x <;> cases y <;> rfl

lemma ndassert_ne_sat {m : NdMachine} {a b : ndbool} {g : Assignment}
    (h : (ndassert_ne m a b).inst.satisfiedBy g = true) :
    m.inst.satisfiedBy g = true ∧
      Assignment.get g a.lit ≠ Assignment.get g b.lit := by
  simp only [ndassert_ne, ndbool.ndne] at h
  obtain ⟨h1, hne⟩ := ndassert_sat h
  obtain ⟨h2, hE⟩ := ndeq_sat h1
  refine ⟨h2, ?_⟩
  rw [get_ndnot, hE] at hne
  simpa using hne

lemma and_comm_trace_unsat (m : NdMachine) (a b : ndbool) (g : Assignment) :
    (and_comm_trace m a b).inst.satisfiedBy g = false := by
  rcases Bool.eq_false_or_eq_true ((and_comm_trace m a b).inst.satisfiedBy g)
    with ht | hf
  case inr => exact hf
  case inl =>
    exfalso
    simp only [and_comm_trace] at ht
    obtain ⟨hq, hne⟩ := ndassert_ne_sat ht
    obtain ⟨hp, hQ⟩ := bitand_sat hq
    obtain ⟨_, hP⟩ := bitand_sat hp
    rw [hP, hQ] at hne
    exact hne (Bool.and_comm _ _)

lemma or_comm_trace_unsat (m : NdMachine) (a b : ndbool) (g : Assignment) :
    (or_comm_trace m a b).inst.satisfiedBy g = false := by
  rcases Bool.eq_false_or_eq_true ((or_comm_trace m a b).inst.satisfiedBy g)
    with ht | hf
  case inr => exact hf
  case inl =>
    exfalso
    simp only [or_comm_trace] at ht
    obtain ⟨hq, hne⟩ := ndassert_ne_sat ht
    obtain ⟨hp, hQ⟩ := bitor_sat hq
    obtain ⟨_, hP⟩ := bitor_sat hp
    rw [hP, hQ] at hne
    exact hne (Bool.or_comm _ _)

lemma and_assoc_trace_unsat (m : NdMachine) (a b c : ndbool) (g : Assignment) :
    (and_assoc_trace m a b c).inst.satisfiedBy g = false := by
  rcases Bool.eq_false_or_eq_true ((and_assoc_trace m a b c).inst.satisfiedBy g)
    with ht | hf
  case inr => exact hf
  case inl =>
    exfalso
    simp only [and_assoc_trace] at ht
    obtain ⟨hq2, hne⟩ := ndassert_ne_sat ht
    obtain ⟨hq1, hQ2⟩ := bitand_sat hq2
    obtain ⟨hp2, hQ1⟩ := bitand_sat hq1
    obtain ⟨hp1, hP2⟩ := bitand_sat hp2
    obtain ⟨_, hP1⟩ := bitand_sat hp1
    rw [hP2, hP1, hQ2, hQ1] at hne
    exact hne (Bool.and_assoc _ _ _)

lemma or_assoc_trace_unsat (m : NdMachine) (a b c : ndbool) (g : Assignment) :
    (or_assoc_trace m a b c).inst.satisfiedBy g = false := by
  rcases Bool.eq_false_or_eq_true ((or_assoc_trace m a b c).inst.satisfiedBy g)
    with ht | hf
  case inr => exact hf
  case inl =>
    exfalso
    simp only [or_assoc_trace] at ht
    obtain ⟨hq2, hne⟩ := ndassert_ne_sat ht
    obtain ⟨hq1, hQ2⟩ := bitor_sat hq2
    obtain ⟨hp2, hQ1⟩ := bitor_sat hq1
    obtain ⟨hp1, hP2⟩ := bitor_sat hp2
    obtain ⟨_, hP1⟩ := bitor_sat hp1
    rw [hP2, hP1, hQ2, hQ1] at hne
    exact hne (Bool.or_assoc _ _ _)

/-- Concrete run refuting the claimed invalidation by `fresh`/`ndassert`:
a session holding one fresh, unconstrained variable. -/
def staleFresh : NdMachine × ndbool :=
  ndbool.fresh NdMachine.new

/-- Backend returning the all-true assignment; it satisfies the store of
`staleFresh`, which has no clauses. -/
def allTrueSolver : Instance → Option Assignment :=
  fun _ => some (fun _ => true)

/-- Session after a successful solve on `staleFresh`. -/
def staleSolved : NdMachine × Bool :=
  solve_by allTrueSolver staleFresh.1

/-- Session after a further `ndassert` following the successful solve. -/
def staleAsserted : NdMachine :=
  ndassert staleSolved.1 staleFresh.2

/-- Claim C1 (counterexample): after a successful solve, `ndassert` does not
force the assignment slot to absent — `value` still succeeds on the stale
assignment instead of failing with NoSolutionAvailable — and `fresh` also
leaves the slot present. -/
theorem ndassert_keeps_stale_assignment :
    staleSolved.2 = true ∧
    staleAsserted.assignment.isSome = true ∧
    (ndbool.value staleAsserted staleFresh.2).2 = some true ∧
    ((ndbool.fresh staleSolved.1).1.assignment).isSome = true :=
  ⟨rfl, rfl, rfl, rfl⟩

/-- Claim C1 (amended): the operations `t`, `f`, `bitand`, `bitor`, and
transitively `bitxor` force the assignment slot to absent, so `value` fails
after them without re-solving; but `fresh` and `ndassert` leave the slot
exactly as it was, so they do not invalidate a previous solution. -/
theorem mutators_invalidation_status (m : NdMachine) (a b x : ndbool) :
    ((ndbool.t m).1.assignment = none ∧
      (ndbool.value (ndbool.t m).1 x).2 = none) ∧
    ((ndbool.f m).1.assignment = none ∧
      (ndbool.value (ndbool.f m).1 x).2 = none) ∧
    ((ndbool.bitand m a b).1.assignment = none ∧
      (ndbool.value (ndbool.bitand m a b).1 x).2 = none) ∧
    ((ndbool.bitor m a b).1.assignment = none ∧
      (ndbool.value (ndbool.bitor m a b).1 x).2 = none) ∧
    ((ndbool.bitxor m a b).1.assignment = none ∧
      (ndbool.value (ndbool.bitxor m a b).1 x).2 = none) ∧
    (ndbool.fresh m).1.assignment = m.assignment ∧
    (ndassert m a).assignment = m.assignment :=
  ⟨⟨rfl, rfl⟩, ⟨rfl, rfl⟩, ⟨rfl, rfl⟩, ⟨rfl, rfl⟩, ⟨rfl, rfl⟩, rfl, rfl⟩

/-- Claim C2: `bitand` allocates exactly one fresh variable, asserts exactly
the three clauses `(¬a ∨ ¬b ∨ L)`, `(a ∨ ¬L)`, `(b ∨ ¬L)`, and in every
assignment satisfying the resulting store the returned literal is true iff
both operands are true. -/
theorem bitand_gate_exact (m : NdMachine) (a b : ndbool) :
    (ndbool.bitand m a b).1.inst.numVars = m.inst.numVars + 1 ∧
    (ndbool.bitand m a b).2.lit = ⟨m.inst.numVars, true⟩ ∧
    (ndbool.bitand m a b).1.inst.clauses = m.inst.clauses ++
      [[a.lit.not, b.lit.not, ⟨m.inst.numVars, true⟩],
       [a.lit, Literal.not ⟨m.inst.numVars, true⟩],
       [b.lit, Literal.not ⟨m.inst.numVars, true⟩]] ∧
    ∀ g : Assignment, (ndbool.bitand m a b).1.inst.satisfiedBy g = true →
      Assignment.get g (ndbool.bitand m a b).2.lit =
        (Assignment.get g a.lit && Assignment.get g b.lit) := by
  refine ⟨rfl, rfl, ?_, fun g h => (bitand_sat h).2⟩
  simp [ndbool.bitand, Instance.fresh_var, Instance.assert_any]

/-- Witness for `bitand_gate_exact`: a concrete store and the all-true
assignment satisfying it. -/
theorem bitand_gate_exact_witness :
    Assignment.get (fun _ => true)
        (ndbool.bitand NdMachine.new ⟨⟨0, true⟩⟩ ⟨⟨1, true⟩⟩).2.lit =
      (Assignment.get (fun _ => true) (⟨0, true⟩ : Literal) &&
        Assignment.get (fun _ => true) (⟨1, true⟩ : Literal)) :=
  (bitand_gate_exact NdMachine.new ⟨⟨0, true⟩⟩ ⟨⟨1, true⟩⟩).2.2.2
    (fun _ => true) (by decide)

/-- Claim C3: `bitor` allocates exactly one fresh variable, asserts exactly
the three clauses `(a ∨ b ∨ ¬L)`, `(¬a ∨ L)`, `(¬b ∨ L)`, and in every
assignment satisfying the resulting store the returned literal is true iff
at least one operand is true. -/
theorem bitor_gate_exact (m : NdMachine) (a b : ndbool) :
    (ndbool.bitor m a b).1.inst.numVars = m.inst.numVars + 1 ∧
    (ndbool.bitor m a b).2.lit = ⟨m.inst.numVars, true⟩ ∧
    (ndbool.bitor m a b).1.inst.clauses = m.inst.clauses ++
      [[a.lit, b.lit, Literal.not ⟨m.inst.numVars, true⟩],
       [a.lit.not, ⟨m.inst.numVars, true⟩],
       [b.lit.not, ⟨m.inst.numVars, true⟩]] ∧
    ∀ g : Assignment, (ndbool.bitor m a b).1.inst.satisfiedBy g = true →
      Assignment.get g (ndbool.bitor m a b).2.lit =
        (Assignment.get g a.lit || Assignment.get g b.lit) := by
  refine ⟨rfl, rfl, ?_, fun g h => (bitor_sat h).2⟩
  simp [ndbool.bitor, Instance.fresh_var, Instance.assert_any]

/-- Witness for `bitor_gate_exact`: a concrete store and the all-true
assignment satisfying it. -/
theorem bitor_gate_exact_witness :
    Assignment.get (fun _ => true)
        (ndbool.bitor NdMachine.new ⟨⟨0, true⟩⟩ ⟨⟨1, true⟩⟩).2.lit =
      (Assignment.get (fun _ => true) (⟨0, true⟩ : Literal) ||
        Assignment.get (fun _ => true) (⟨1, true⟩ : Literal)) :=
  (bitor_gate_exact NdMachine.new ⟨⟨0, true⟩⟩ ⟨⟨1, true⟩⟩).2.2.2
    (fun _ => true) (by decide)

/-- Claim C4: asserting `ndne` between `a & b` and `b & a` (likewise for
`|`, and for both associations of three operands) leaves a formula store no
assignment satisfies, even though the two sides allocate distinct auxiliary
variables. -/
theorem comm_assoc_traces_unsat (m : NdMachine) (a b c : ndbool)
    (g : Assignment) :
    (and_comm_trace m a b).inst.satisfiedBy g = false ∧
    (or_comm_trace m a b).inst.satisfiedBy g = false ∧
    (and_assoc_trace m a b c).inst.satisfiedBy g = false ∧
    (or_assoc_trace m a b c).inst.satisfiedBy g = false :=
  ⟨and_comm_trace_unsat m a b g, or_comm_trace_unsat m a b g,
   and_assoc_trace_unsat m a b c g, or_assoc_trace_unsat m a b c g⟩

/-- Claim C5: `bitxor` is the composition `(a | b) & !(a & b)` of the `or`,
`and` and `negate` operations, allocates three fresh variables (two beyond a
minimal single-gate encoding), and in every assignment satisfying the
resulting store the returned literal is true iff exactly one operand is. -/
theorem bitxor_composition_exact (m : NdMachine) (a b : ndbool) :
    ndbool.bitxor m a b =
      (let o := ndbool.bitor m a b
       let n := ndbool.bitand o.1 a b
       ndbool.bitand n.1 o.2 (ndbool.not n.2)) ∧
    (ndbool.bitxor m a b).1.inst.numVars = m.inst.numVars + 3 ∧
    ∀ g : Assignment, (ndbool.bitxor m a b).1.inst.satisfiedBy g = true →
      Assignment.get g (ndbool.bitxor m a b).2.lit =
        ((Assignment.get g a.lit) != (Assignment.get g b.lit)) := by
  refine ⟨rfl, rfl, fun g h => ?_⟩
  simp only [ndbool.bitxor] at h ⊢
  obtain ⟨h1, hL⟩ := bitand_sat h
  obtain ⟨h2, hN⟩ := bitand_sat h1
  obtain ⟨h3, hO⟩ := bitor_sat h2
  rw [hL, get_ndnot, hN, hO]
  generalize Assignment.get g a.lit = x
  generalize Assignment.get g b.lit = y
  cases x <;> cases y <;> rfl

/-- Witness for `bitxor_composition_exact`: a concrete store with operand
variables 0 (true) and 1 (false) and the matching gate values. -/
theorem bitxor_composition_exact_witness :
    Assignment.get (fun n => n == 0 || n == 2 || n == 4)
        (ndbool.bitxor ⟨⟨2, []⟩, none⟩ ⟨⟨0, true⟩⟩ ⟨⟨1, true⟩⟩).2.lit =
      ((Assignment.get (fun n => n == 0 || n == 2 || n == 4)
          (⟨0, true⟩ : Literal)) !=
        (Assignment.get (fun n => n == 0 || n == 2 || n == 4)
          (⟨1, true⟩ : Literal))) :=
  (bitxor_composition_exact ⟨⟨2, []⟩, none⟩ ⟨⟨0, true⟩⟩ ⟨⟨1, true⟩⟩).2.2
    (fun n => n == 0 || n == 2 || n == 4) (by decide)

/-- Claim C6: `ndeq` is the composition `(a | !b) & (!a | b)` of `or`, `and`
and `negate`; in every assignment satisfying the resulting store its literal
is true iff the operands agree; and `ndne` returns exactly the negated
`ndeq` literal on exactly the `ndeq` machine state, asserting nothing of its
own. -/
theorem ndeq_ndne_encoding (m : NdMachine) (a b : ndbool) :
    ndbool.ndeq m a b =
      (let p := ndbool.bitor m a (ndbool.not b)
       let q := ndbool.bitor p.1 (ndbool.not a) b
       ndbool.bitand q.1 p.2 q.2) ∧
    (ndbool.ndne m a b).1 = (ndbool.ndeq m a b).1 ∧
    (ndbool.ndne m a b).2 = ndbool.not (ndbool.ndeq m a b).2 ∧
    ∀ g : Assignment, (ndbool.ndeq m a b).1.inst.satisfiedBy g = true →
      Assignment.get g (ndbool.ndeq m a b).2.lit =
        (Assignment.get g a.lit == Assignment.get g b.lit) :=
  ⟨rfl, rfl, rfl, fun g h => (ndeq_sat h).2⟩

/-- Witness for `ndeq_ndne_encoding`: a concrete store and the all-true
assignment satisfying it. -/
theorem ndeq_ndne_encoding_witness :
    Assignment.get (fun _ => true)
        (ndbool.ndeq ⟨⟨2, []⟩, none⟩ ⟨⟨0, true⟩⟩ ⟨⟨1, true⟩⟩).2.lit =
      (Assignment.get (fun _ => true) (⟨0, true⟩ : Literal) ==
        Assignment.get (fun _ => true) (⟨1, true⟩ : Literal)) :=
  (ndeq_ndne_encoding ⟨⟨2, []⟩, none⟩ ⟨⟨0, true⟩⟩ ⟨⟨1, true⟩⟩).2.2.2
    (fun _ => true) (by decide)

/-- Claim C7: `solve_by` stores the backend result in the assignment slot —
`some` yields `true`, `none` (covering both backend failure and proven
unsatisfiability) yields `false` — and it is the only operation that can
move the slot from absent to present: every other operation either sets the
slot to `none` or leaves it exactly as it was. -/
theorem solve_by_contract (solver : Instance → Option Assignment)
    (m : NdMachine) (a b : ndbool) :
    ((solver m.inst = none → (solve_by solver m).1.assignment = none ∧
        (solve_by solver m).2 = false) ∧
     (∀ s : Assignment, solver m.inst = some s →
        (solve_by solver m).1.assignment = some s ∧
        (solve_by solver m).2 = true)) ∧
    (ndbool.t m).1.assignment = none ∧
    (ndbool.f m).1.assignment = none ∧
    (ndbool.bitand m a b).1.assignment = none ∧
    (ndbool.bitor m a b).1.assignment = none ∧
    (ndbool.bitxor m a b).1.assignment = none ∧
    (ndbool.ndeq m a b).1.assignment = none ∧
    (ndbool.ndne m a b).1.assignment = none ∧
    (ndbool.fresh m).1.assignment = m.assignment ∧
    (ndassert m a).assignment = m.assignment ∧
    (ndassert_eq m a b).assignment = none ∧
    (ndassert_ne m a b).assignment = none ∧
    (ndbool.value m a).1.assignment = m.assignment := by
  refine ⟨⟨fun h => ?_, fun s h => ?_⟩,
    rfl, rfl, rfl, rfl, rfl, rfl, rfl, rfl, rfl, rfl, rfl, rfl⟩
  · simp [solve_by, h]
  · simp [solve_by, h]

/-- Witness for `solve_by_contract`: a failing backend and a succeeding
backend on the fresh session. -/
theorem solve_by_contract_witness :
    ((solve_by (fun _ => none) NdMachine.new).1.assignment = none ∧
      (solve_by (fun _ => none) NdMachine.new).2 = false) ∧
    ((solve_by (fun _ => some (fun _ => true)) NdMachine.new).1.assignment =
        some (fun _ => true) ∧
      (solve_by (fun _ => some (fun _ => true)) NdMachine.new).2 = true) :=
  ⟨(solve_by_contract (fun _ => none) NdMachine.new ⟨⟨0, true⟩⟩
      ⟨⟨0, true⟩⟩).1.1 rfl,
   (solve_by_contract (fun _ => some (fun _ => true)) NdMachine.new
      ⟨⟨0, true⟩⟩ ⟨⟨0, true⟩⟩).1.2 (fun _ => true) rfl⟩

/-- Claim C8: `value` yields `none` (the NoSolutionAvailable panic) exactly
when the assignment slot is absent, otherwise the stored assignment's value
of the wrapped literal, and it changes neither the formula store nor the
slot. -/
theorem value_contract (m : NdMachine) (b : ndbool) :
    (m.assignment = none → (ndbool.value m b).2 = none) ∧
    (∀ s : Assignment, m.assignment = some s →
      (ndbool.value m b).2 = some (Assignment.get s b.lit)) ∧
    (ndbool.value m b).1 = m := by
  refine ⟨fun h => ?_, fun s h => ?_, rfl⟩
  · simp [ndbool.value, h]
  · simp [ndbool.value, h]

/-- Witness for `value_contract`: the never-solved session and a session
with a stored all-true assignment. -/
theorem value_contract_witness :
    (ndbool.value NdMachine.new ⟨⟨0, true⟩⟩).2 = none ∧
    (ndbool.value ⟨⟨1, []⟩, some (fun _ => true)⟩ ⟨⟨0, true⟩⟩).2 =
      some (Assignment.get (fun _ => true) (⟨0, true⟩ : Literal)) :=
  ⟨(value_contract NdMachine.new ⟨⟨0, true⟩⟩).1 rfl,
   (value_contract ⟨⟨1, []⟩, some (fun _ => true)⟩ ⟨⟨0, true⟩⟩).2.1
      (fun _ => true) rfl⟩

/-- Claim C9 (counterexample): negation is one of the public connectives,
yet invoked with the uninitialized session slot it returns the flipped
handle normally instead of failing with UninitializedMachine — the source's
`impl Not for ndbool` never calls `NdMachine::with`. -/
theorem negate_succeeds_uninitialized :
    notOpt none ⟨⟨0, true⟩⟩ = ndbool.mk ⟨0, false⟩ :=
  rfl

/-- Claim C9 (amended): every public operation other than `init` that
consults the session — constructors, binary connectives, equality encoding,
assertion, solving, value extraction — maps the uninitialized session slot
to `none` (the UninitializedMachine panic), but `negate` never consults the
session and simply returns the polarity-flipped handle; `init` itself always
succeeds and installs a fresh session — empty store, absent assignment —
wholesale replacing whatever the slot held. -/
theorem init_and_uninitialized_contract (s : Option NdMachine)
    (a b : ndbool) (solver : Instance → Option Assignment) :
    init s = some NdMachine.new ∧
    notOpt s a = ndbool.mk a.lit.not ∧
    NdMachine.new.inst.numVars = 0 ∧
    NdMachine.new.inst.clauses = [] ∧
    NdMachine.new.assignment = none ∧
    tOpt none = none ∧ fOpt none = none ∧ freshOpt none = none ∧
    bitandOpt none a b = none ∧ bitorOpt none a b = none ∧
    bitxorOpt none a b = none ∧ ndeqOpt none a b = none ∧
    ndneOpt none a b = none ∧ ndassertOpt none a = none ∧
    ndassertEqOpt none a b = none ∧ ndassertNeOpt none a b = none ∧
    solveOpt solver none = none ∧ valueOpt none a = none :=
  ⟨rfl, rfl, rfl, rfl, rfl, rfl, rfl, rfl, rfl, rfl, rfl, rfl, rfl, rfl,
   rfl, rfl, rfl, rfl⟩

/-- Claim C10: `solve_by` mutates only the assignment slot — the formula
store's variable count and clause sequence are exactly what they were,
whether the backend succeeds or fails. -/
theorem solve_by_frame (solver : Instance → Option Assignment)
    (m : NdMachine) :
    (solve_by solver m).1.inst.numVars = m.inst.numVars ∧
    (solve_by solver m).1.inst.clauses = m.inst.clauses :=
  ⟨rfl, rfl⟩

end Ndmachine
